import Mathlib

/-!
Shallow embedding of the spaneventtolog connector
(`spaneventtologconnector/connector.go`, `spaneventtologconnector/config/config.go`).

Go strings are modelled as `List Char`; Go maps with deterministic
iteration (`pcommon.Map`) as association lists in insertion order;
`map[string]string` configuration maps as association lists as well
(noted where iteration order could matter).  `pcommon` wrapper values
(`Resource`, `InstrumentationScope`) compare with Go `==` by instance
identity (the wrappers hold pointers into their backing store), so each
value carries an `InstId`: values originating in the input traces carry
`InstId.source` ids, and every copy made with `CopyTo` is a fresh
instance and carries a fresh `InstId.copied` id drawn from a counter.
-/

namespace SpanEventToLog

/-- Go string, as its list of characters. -/
abbrev GoStr := List Char

/-- Builds a `GoStr` from a Lean string literal. -/
def str (s : String) : GoStr := s.toList

/-- Go `strings.ToLower` on a single ASCII character (all strings the
connector compares are ASCII). -/
def toLowerChar (c : Char) : Char :=
  if 'A' ≤ c ∧ c ≤ 'Z' then Char.ofNat (c.toNat + 32) else c

/-- Go `strings.ToLower`. -/
def toLowerStr (s : GoStr) : GoStr := s.map toLowerChar

/-- Go `strings.HasPrefix s pre`. -/
def hasPrefixStr : GoStr → GoStr → Bool
  | _, [] => true
  | [], _ :: _ => false
  | c :: s, p :: ps => c = p && hasPrefixStr s ps

/-- Go `strings.Contains s sub`. -/
def containsStr : GoStr → GoStr → Bool
  | [], sub => hasPrefixStr [] sub
  | c :: rest, sub => hasPrefixStr (c :: rest) sub || containsStr rest sub

/-- Go `strings.HasSuffix s suf`. -/
def hasSuffixStr (s suf : GoStr) : Bool := hasPrefixStr s.reverse suf.reverse

/-- Go `strings.TrimSuffix s suf`. -/
def trimSuffixStr (s suf : GoStr) : GoStr :=
  if hasSuffixStr s suf then s.take (s.length - suf.length) else s

/-- A `pcommon.Value`: the connector only inspects the string and int
cases; every other value type is collapsed into `vOther`. -/
inductive AttrValue
  | vStr (s : GoStr)
  | vInt (n : Int)
  | vOther
deriving DecidableEq

/-- A `pcommon.Map`: ordered key/value pairs, insertion order preserved. -/
abbrev AttrMap := List (GoStr × AttrValue)

/-- `pcommon.Map.Get`: first entry with the given key. -/
def aget : AttrMap → GoStr → Option AttrValue
  | [], _ => none
  | (k', v) :: rest, k => if k' = k then some v else aget rest k

/-- `pcommon.Map.PutStr` / `PutEmpty` + set: upsert that keeps the
position of an existing key and appends a missing one. -/
def aput : AttrMap → GoStr → AttrValue → AttrMap
  | [], k, v => [(k, v)]
  | (k', v') :: rest, k, v =>
      if k' = k then (k, v) :: rest else (k', v') :: aput rest k v

/-- Identity of a `pcommon` wrapper value: `source` ids belong to values
embedded in the input traces, `copied` ids are minted for each `CopyTo`
destination, so a copy is never `==` to its source. -/
inductive InstId
  | source (n : Nat)
  | copied (n : Nat)
deriving DecidableEq

/-- `pcommon.Resource`. -/
structure Resource where
  id : InstId
  attributes : AttrMap := []
deriving DecidableEq

/-- `pcommon.InstrumentationScope`. -/
structure InstrumentationScope where
  id : InstId
  name : GoStr := []
  version : GoStr := []
deriving DecidableEq

/-- `ptrace.SpanEvent`. -/
structure SpanEvent where
  name : GoStr := []
  timestamp : Nat := 0
  attributes : AttrMap := []
deriving DecidableEq

/-- `ptrace.Span` (the fields the connector reads). -/
structure Span where
  name : GoStr := []
  kind : Nat := 0
  traceId : Nat := 0
  spanId : Nat := 0
  traceState : GoStr := []
  attributes : AttrMap := []
  events : List SpanEvent := []
deriving DecidableEq

/-- `ptrace.ScopeSpans`. -/
structure ScopeSpans where
  scope : InstrumentationScope
  spans : List Span := []
deriving DecidableEq

/-- `ptrace.ResourceSpans`. -/
structure ResourceSpans where
  resource : Resource
  scopeSpans : List ScopeSpans := []
deriving DecidableEq

/-- `ptrace.Traces`. -/
structure Traces where
  resourceSpans : List ResourceSpans := []
deriving DecidableEq

/-- `plog.LogRecord` (fields the connector writes; a fresh record from
`AppendEmpty` is all-zero). -/
structure LogRecord where
  timestamp : Nat := 0
  observedTimestamp : Nat := 0
  severityNumber : Int := 0
  severityText : GoStr := []
  body : GoStr := []
  traceId : Nat := 0
  spanId : Nat := 0
  attributes : AttrMap := []
deriving DecidableEq

/-- `plog.ScopeLogs`. -/
structure ScopeLogs where
  scope : InstrumentationScope
  logRecords : List LogRecord := []
deriving DecidableEq

/-- `plog.ResourceLogs`. -/
structure ResourceLogs where
  resource : Resource
  scopeLogs : List ScopeLogs := []
deriving DecidableEq

/-- `plog.Logs`. -/
structure Logs where
  resourceLogs : List ResourceLogs := []
deriving DecidableEq

/-- `plog.Logs.LogRecordCount`. -/
def logRecordCount (logs : Logs) : Nat :=
  (logs.resourceLogs.map
    (fun rl => (rl.scopeLogs.map (fun sl => sl.logRecords.length)).sum)).sum

/-- `config.AttributeMappings`; an empty string means "not configured". -/
structure AttributeMappings where
  body : GoStr := []
  severityNumber : GoStr := []
  severityText : GoStr := []
  eventName : GoStr := []
deriving DecidableEq

/-- `config.Config`.  `SeverityByEventName` is a Go `map[string]string`;
it is modelled as an association list, and results that could depend on
Go's unordered iteration are noted at the point of use. -/
structure Config where
  includeEventNames : List GoStr := []
  includeSpanContext : Bool := false
  logAttributesFrom : List GoStr := []
  severityByEventName : List (GoStr × GoStr) := []
  addLevel : Bool := false
  severityAttribute : GoStr := []
  attributeMappings : AttributeMappings := {}
deriving DecidableEq

/-- The `Connector` struct: configuration plus the pre-built event-name
set (`nil` in Go when `IncludeEventNames` is empty). -/
structure Connector where
  config : Config
  eventNameSet : Option (List GoStr)
deriving DecidableEq

/-- `newConnector`: builds the event-name set only when the include list
is non-empty. -/
def newConnector (cfg : Config) : Connector :=
  { config := cfg
    eventNameSet :=
      if cfg.includeEventNames.length > 0 then some cfg.includeEventNames else none }

/-- The event-name filter applied inside `extractLogsFromTraces`: with a
`nil` set every event passes, otherwise exact-name membership. -/
def eventPasses (c : Connector) (name : GoStr) : Bool :=
  match c.eventNameSet with
  | none => true
  | some s => s.any (fun n => n = name)

/-- `shouldCopyAttributes`. -/
def shouldCopyAttributes (c : Connector) (source : GoStr) : Bool :=
  c.config.logAttributesFrom.any (fun s => s = source)

/-- One entry of `severityMappings`. -/
structure SevMapping where
  number : Int
  text : GoStr
deriving DecidableEq

/-- `severityMappings`: the canonical number/text table.
`plog.SeverityNumber` ordinals: Trace=1 … Fatal4=24. -/
def severityMappings : List SevMapping :=
  [⟨1, str "trace"⟩, ⟨2, str "trace2"⟩, ⟨3, str "trace3"⟩, ⟨4, str "trace4"⟩,
   ⟨5, str "debug"⟩, ⟨6, str "debug2"⟩, ⟨7, str "debug3"⟩, ⟨8, str "debug4"⟩,
   ⟨9, str "info"⟩, ⟨10, str "info2"⟩, ⟨11, str "info3"⟩, ⟨12, str "info4"⟩,
   ⟨13, str "warn"⟩, ⟨14, str "warn2"⟩, ⟨15, str "warn3"⟩, ⟨16, str "warn4"⟩,
   ⟨17, str "error"⟩, ⟨18, str "error2"⟩, ⟨19, str "error3"⟩, ⟨20, str "error4"⟩,
   ⟨21, str "fatal"⟩, ⟨22, str "fatal2"⟩, ⟨23, str "fatal3"⟩, ⟨24, str "fatal4"⟩]

/-- Association-list lookup (Go map read: first matching key; all the
maps built below have unique keys). -/
def alookup {β : Type} : List (GoStr × β) → GoStr → Option β
  | [], _ => none
  | (k, v) :: rest, key => if k = key then some v else alookup rest key

/-- Integer-keyed lookup for the number→text map. -/
def nlookup {β : Type} : List (Int × β) → Int → Option β
  | [], _ => none
  | (k, v) :: rest, key => if k = key then some v else nlookup rest key

/-- `severityToTextMap`, generated from `severityMappings`. -/
def severityToTextMap : List (Int × GoStr) :=
  severityMappings.foldl (fun m mp => m ++ [(mp.number, mp.text)]) []

/-- `textToSeverityMap`, generated from `severityMappings`, with the
aliases "warning" (for "warn") and "err" (for "error"). -/
def textToSeverityMap : List (GoStr × Int) :=
  severityMappings.foldl
    (fun m mp =>
      let m := m ++ [(mp.text, mp.number)]
      if mp.text = str "warn" then m ++ [(str "warning", mp.number)]
      else if mp.text = str "error" then m ++ [(str "err", mp.number)]
      else m)
    []

/-- The body of `mapSeverity` after the one `strings.ToLower` call
(the Go code lowercases once and works on `lowerSeverity`).  A Go map
read of a missing key yields the zero value, hence the `getD []`. -/
def mapSeverityLower (ls : GoStr) : Int × GoStr :=
  match alookup textToSeverityMap ls with
  | some n => (n, (nlookup severityToTextMap n).getD [])
  | none =>
    match (if hasSuffixStr ls (str "1")
           then alookup textToSeverityMap (trimSuffixStr ls (str "1"))
           else none) with
    | some n => (n, (nlookup severityToTextMap n).getD [])
    | none =>
      match (if hasPrefixStr ls (str "warning") && decide (ls.length > 7)
             then alookup textToSeverityMap (str "warn" ++ ls.drop 7)
             else none) with
      | some n => (n, (nlookup severityToTextMap n).getD [])
      | none => (0, [])

/-- `mapSeverity`: severity string (case-insensitive) to
`(plog.SeverityNumber, canonical text)`; `(0, "")` signals no match. -/
def mapSeverity (severity : GoStr) : Int × GoStr :=
  mapSeverityLower (toLowerStr severity)

/-- `severityNumberToText`: canonical text, defaulting to "info". -/
def severityNumberToText (severityNumber : Int) : GoStr :=
  (nlookup severityToTextMap severityNumber).getD (str "info")

/-- Go conversion `plog.SeverityNumber(int64)`: truncation to int32. -/
def wrap32 (n : Int) : Int :=
  Int.emod (n + 2147483648) 4294967296 - 2147483648

/-- The running severity-resolution state of `populateLogRecord`
(`severityNumber`, `severityText`, `severityFound`). -/
structure SevState where
  number : Int
  text : GoStr
  found : Bool
deriving DecidableEq

/-- The initial severity state of `populateLogRecord` (connector.go
266–269): default Info/"info", not yet found. -/
def sevSt0 : SevState := { number := 9, text := str "info", found := false }

/-- The severity-number half of stage 1 (connector.go 273–282): adopt a
configured integer attribute, deriving the text from the number. -/
def sevStage1Num (cfg : Config) (event : SpanEvent) : SevState :=
  if cfg.attributeMappings.severityNumber ≠ [] then
    match aget event.attributes cfg.attributeMappings.severityNumber with
    | some (AttrValue.vInt n) =>
      let sn := wrap32 n
      { number := sn, text := severityNumberToText sn, found := true }
    | _ => sevSt0
  else sevSt0

/-- The severity-text half of stage 1 (connector.go 283–296): adopt a
configured string attribute as the text, parsing it into a number only
when the number half found nothing. -/
def sevStage1Text (cfg : Config) (event : SpanEvent) (st : SevState) : SevState :=
  if cfg.attributeMappings.severityText ≠ [] then
    match aget event.attributes cfg.attributeMappings.severityText with
    | some (AttrValue.vStr s) =>
      if st.found then { st with text := s }
      else
        let p := mapSeverity s
        if p.1 ≠ 0 then { number := p.1, text := p.2, found := true }
        else { number := st.number, text := s, found := true }
    | _ => st
  else st

/-- Stage 1 of `populateLogRecord`'s severity resolution: the
`AttributeMappings` severity number/text attributes (highest
precedence), guarded as in connector.go line 272. -/
def sevStage1 (cfg : Config) (event : SpanEvent) : SevState :=
  if cfg.attributeMappings.severityNumber ≠ [] ∨ cfg.attributeMappings.severityText ≠ [] then
    sevStage1Text cfg event (sevStage1Num cfg event)
  else sevSt0

/-- Stage 2: the `SeverityAttribute` lookup (connector.go 299–309). -/
def sevStage2 (cfg : Config) (event : SpanEvent) (st : SevState) : SevState :=
  if ¬ st.found ∧ cfg.severityAttribute ≠ [] then
    match aget event.attributes cfg.severityAttribute with
    | some (AttrValue.vStr s) =>
      let p := mapSeverity s
      if p.1 ≠ 0 then { number := p.1, text := p.2, found := true } else st
    | _ => st
  else st

/-- Stage 3: the `SeverityByEventName` longest-substring scan
(connector.go 311–335).  The Go code iterates an unordered map; on a tie
between two equally long valid keys the Go result depends on iteration
order, and this model takes the earliest list entry. -/
def sevStage3 (cfg : Config) (event : SpanEvent) (st : SevState) : SevState :=
  if ¬ st.found ∧ cfg.severityByEventName.length > 0 then
    let lowerEventName := toLowerStr event.name
    let best := cfg.severityByEventName.foldl
      (fun (acc : Nat × GoStr) kv =>
        let lowerKey := toLowerStr kv.1
        if containsStr lowerEventName lowerKey then
          if kv.1.length > acc.1 then
            let p := mapSeverity kv.2
            if p.1 ≠ 0 then (kv.1.length, p.2) else acc
          else acc
        else acc)
      (0, ([] : GoStr))
    if best.2 ≠ [] then
      let p := mapSeverity best.2
      { number := p.1, text := p.2, found := true }
    else st
  else st

/-- The severity-resolution prefix of `populateLogRecord`
(connector.go 266–335), as the three stages run in order. -/
def resolveSeverity (cfg : Config) (event : SpanEvent) : Int × GoStr :=
  let st := sevStage3 cfg event (sevStage2 cfg event (sevStage1 cfg event))
  (st.number, st.text)

/-- `ptrace.SpanKind.String()`. -/
def spanKindString (k : Nat) : GoStr :=
  if k = 1 then str "Internal"
  else if k = 2 then str "Server"
  else if k = 3 then str "Client"
  else if k = 4 then str "Producer"
  else if k = 5 then str "Consumer"
  else str "Unspecified"

/-- The record's attribute map after the first two writes of
`populateLogRecord` (connector.go 360–368): event attributes (`CopyTo`
into the empty record map), then the preserved event name. -/
def attrsAfterEventCopy (c : Connector) (event : SpanEvent) : AttrMap :=
  if c.config.attributeMappings.eventName ≠ [] then
    aput (if shouldCopyAttributes c (str "event.attributes") then event.attributes else [])
      c.config.attributeMappings.eventName (AttrValue.vStr event.name)
  else
    if shouldCopyAttributes c (str "event.attributes") then event.attributes else []

/-- The attribute map after the add-level write (connector.go 370–378):
set "level" to the already-resolved severity text only when enabled and
the key is absent. -/
def composeAttrsBase (c : Connector) (event : SpanEvent) (sevText : GoStr) : AttrMap :=
  if c.config.addLevel then
    if (aget (attrsAfterEventCopy c event) (str "level")).isSome then
      attrsAfterEventCopy c event
    else aput (attrsAfterEventCopy c event) (str "level") (AttrValue.vStr sevText)
  else attrsAfterEventCopy c event

/-- The span-attribute copy of `populateLogRecord` (connector.go
380–386): a `Range` + `PutEmpty` upsert per span attribute. -/
def composeAttrsSpan (c : Connector) (span : Span) (m : AttrMap) : AttrMap :=
  if shouldCopyAttributes c (str "span.attributes") then
    span.attributes.foldl (fun a kv => aput a kv.1 kv.2) m
  else m

/-- The span-context attribute writes of `populateLogRecord`
(connector.go 388–403): trace state (only if non-empty), span name and
span kind. -/
def composeAttrsCtx (c : Connector) (span : Span) (m : AttrMap) : AttrMap :=
  if c.config.includeSpanContext then
    let attrs5 := if span.traceState ≠ [] then
                    aput m (str "trace.state") (AttrValue.vStr span.traceState)
                  else m
    let attrs6 := aput attrs5 (str "span.name") (AttrValue.vStr span.name)
    aput attrs6 (str "span.kind") (AttrValue.vStr (spanKindString span.kind))
  else m

/-- `populateLogRecord` (connector.go 260–404): severity resolution,
timestamps, body, the attribute writes in source order (event
attributes, preserved event name, "level", span attributes, span
context), and the trace/span ids when span context is enabled. -/
def populateLogRecord (c : Connector) (now : Nat) (event : SpanEvent) (span : Span) :
    LogRecord :=
  let sev := resolveSeverity c.config event
  let body :=
    if c.config.attributeMappings.body ≠ [] then
      match aget event.attributes c.config.attributeMappings.body with
      | some (AttrValue.vStr s) => s
      | _ => event.name
    else event.name
  let attrs := composeAttrsCtx c span (composeAttrsSpan c span (composeAttrsBase c event sev.2))
  { timestamp := event.timestamp, observedTimestamp := now,
    severityNumber := sev.1, severityText := sev.2, body := body,
    traceId := if c.config.includeSpanContext then span.traceId else 0,
    spanId := if c.config.includeSpanContext then span.spanId else 0,
    attributes := attrs }

/-- Replaces the element at an index (no-op when out of range). -/
def listModify {α : Type} : List α → Nat → (α → α) → List α
  | [], _, _ => []
  | x :: xs, 0, f => f x :: xs
  | x :: xs, n + 1, f => x :: listModify xs n f

/-- `findOrCreateResourceLogs` (connector.go 156–170).  The Go loop
compares `rl.Resource() == res`, i.e. wrapper identity; resources held
by the output logs are `CopyTo` copies and thus fresh instances, so the
created copy is given a fresh `copied` id from the counter.  Returns the
updated groups, the group index, the created flag and the counter. -/
def findOrCreateResourceLogs (logs : List ResourceLogs) (res : Resource) (ctr : Nat) :
    List ResourceLogs × Nat × Bool × Nat :=
  match logs.findIdx? (fun rl => decide (rl.resource.id = res.id)) with
  | some i => (logs, i, false, ctr)
  | none =>
    (logs ++ [{ resource := { id := InstId.copied ctr, attributes := res.attributes } }],
     logs.length, true, ctr + 1)

/-- `findOrCreateScopeLogs` (connector.go 172–186); same identity
comparison and copy discipline one level down. -/
def findOrCreateScopeLogs (logs : List ResourceLogs) (ridx : Nat)
    (scope : InstrumentationScope) (ctr : Nat) : List ResourceLogs × Nat × Nat :=
  let rl := logs.getD ridx { resource := { id := InstId.copied 0 } }
  match rl.scopeLogs.findIdx? (fun sl => decide (sl.scope.id = scope.id)) with
  | some j => (logs, j, ctr)
  | none =>
    (listModify logs ridx (fun rl =>
       { rl with scopeLogs := rl.scopeLogs ++
           [{ scope := { id := InstId.copied ctr, name := scope.name,
                         version := scope.version } }] }),
     rl.scopeLogs.length, ctr + 1)

/-- Appends a record to the scope group at `(ridx, sidx)`. -/
def appendRecord (logs : List ResourceLogs) (ridx sidx : Nat) (rec : LogRecord) :
    List ResourceLogs :=
  listModify logs ridx (fun rl =>
    { rl with scopeLogs := listModify rl.scopeLogs sidx (fun sl =>
        { sl with logRecords := sl.logRecords ++ [rec] }) })

/-- The per-event body of `extractLogsFromTraces`'s innermost loop
(connector.go 215–246): filter, lazy group creation with the
resource-attribute copy-or-clear on first creation, then record
population.  The state is the group list plus the fresh-id counter. -/
def processEvent (c : Connector) (now : Nat) (resource : Resource)
    (scope : InstrumentationScope) (span : Span) (event : SpanEvent)
    (st : List ResourceLogs × Nat) : List ResourceLogs × Nat :=
  if eventPasses c event.name then
    let (logs, ctr) := st
    let (logs, ridx, created, ctr) := findOrCreateResourceLogs logs resource ctr
    let logs :=
      if created then
        if shouldCopyAttributes c (str "resource.attributes") then
          listModify logs ridx (fun rl =>
            { rl with resource := { rl.resource with attributes := resource.attributes } })
        else
          listModify logs ridx (fun rl =>
            { rl with resource := { rl.resource with attributes := [] } })
      else logs
    let (logs, sidx, ctr) := findOrCreateScopeLogs logs ridx scope ctr
    (appendRecord logs ridx sidx (populateLogRecord c now event span), ctr)
  else st

/-- `extractLogsFromTraces` (connector.go 188–258): early return on an
empty input, then the resource→scope→span→event walk. -/
def extractLogsFromTraces (c : Connector) (now : Nat) (traces : Traces) : Logs :=
  if traces.resourceSpans.length = 0 then { resourceLogs := [] }
  else
    let st : List ResourceLogs × Nat := ([], 0)
    let st := traces.resourceSpans.foldl (fun st rs =>
      rs.scopeSpans.foldl (fun st ss =>
        ss.spans.foldl (fun st sp =>
          sp.events.foldl (fun st ev => processEvent c now rs.resource ss.scope sp ev st)
            st) st) st) st
    { resourceLogs := st.1 }

/-- `ConsumeTraces` (connector.go 119–144): `some logs` models a
downstream `ConsumeLogs` call with that batch, `none` models no call. -/
def consumeTraces (c : Connector) (now : Nat) (traces : Traces) : Option Logs :=
  let logs := extractLogsFromTraces c now traces
  if logRecordCount logs > 0 then some logs else none

/-- The `validSources` set of `Config.Validate`. -/
def validSources : List GoStr :=
  [str "event.attributes", str "span.attributes", str "resource.attributes"]

/-- The `validSeverities` set of `Config.Validate`: the 24 canonical
texts plus "unspecified", matched case-sensitively. -/
def validSeverities : List GoStr :=
  [str "trace", str "trace2", str "trace3", str "trace4",
   str "debug", str "debug2", str "debug3", str "debug4",
   str "info", str "info2", str "info3", str "info4",
   str "warn", str "warn2", str "warn3", str "warn4",
   str "error", str "error2", str "error3", str "error4",
   str "fatal", str "fatal2", str "fatal3", str "fatal4",
   str "unspecified"]

/-- `Config.Validate` (config.go 74–122).  `some msg` models a non-nil
error.  Which offending severity entry is reported first depends on Go
map iteration order, but whether an error is returned does not. -/
def Validate (cfg : Config) : Option GoStr :=
  match cfg.logAttributesFrom.find? (fun s => !(validSources.any (fun v => v = s))) with
  | some s => some (str "invalid log attributes source: " ++ s)
  | none =>
    match cfg.severityByEventName.find?
        (fun kv => !(validSeverities.any (fun v => v = kv.2))) with
    | some kv =>
      some (str "invalid severity level for event " ++ kv.1 ++ str ": " ++ kv.2)
    | none => none


/-! Concrete fixtures used by the claim theorems below.  They mirror the
repository's own test data (`connector_test.go`): one resource, one
scope, one span carrying an "exception" event and a "custom" event. -/

/-- Test resource instance (identity `source 0` in the input traces). -/
def resFix : Resource :=
  { id := InstId.source 0
    attributes := [(str "service.name", AttrValue.vStr (str "test-service"))] }

/-- Test scope instance. -/
def scopeFix : InstrumentationScope :=
  { id := InstId.source 0
    name := str "test-scope"
    version := str "1.0.0" }

/-- The "exception" test event. -/
def evException : SpanEvent :=
  { name := str "exception"
    timestamp := 5
    attributes := [(str "exception.type", AttrValue.vStr (str "NullPointerException"))] }

/-- The "custom" test event. -/
def evCustom : SpanEvent :=
  { name := str "custom"
    timestamp := 6
    attributes := [(str "custom.key", AttrValue.vStr (str "custom value"))] }

/-- The test span holding both events. -/
def spanFix : Span :=
  { name := str "test-span"
    kind := 2
    traceId := 7
    spanId := 8
    events := [evException, evCustom] }

/-- The test trace batch. -/
def tracesFix : Traces :=
  { resourceSpans := [{ resource := resFix
                        scopeSpans := [{ scope := scopeFix, spans := [spanFix] }] }] }

/-- A configuration with no event filter. -/
def cfgFix : Config :=
  { includeSpanContext := true
    logAttributesFrom := [str "event.attributes"] }

/-- A configuration whose allow-list matches nothing in `tracesFix`. -/
def cfgNoMatch : Config := { includeEventNames := [str "nonexistent"] }

/-- C2 fixture: span attributes listed before event attributes. -/
def cfgSpanThenEvent : Config :=
  { logAttributesFrom := [str "span.attributes", str "event.attributes"] }

/-- C2 fixture event: carries the shared key. -/
def evShared : SpanEvent :=
  { name := str "e"
    attributes := [(str "shared.key", AttrValue.vStr (str "event-val"))] }

/-- C2 fixture span: carries the same key with another value. -/
def spShared : Span :=
  { attributes := [(str "shared.key", AttrValue.vStr (str "span-val"))] }

/-- C4 fixture: attribute mappings plus both lower-precedence stages
configured to disagree (severity attribute "debug", event-name map
"fatal"). -/
def cfgPrecedence : Config :=
  { severityAttribute := str "sev.attr"
    severityByEventName := [(str "boom", str "fatal")]
    attributeMappings := { severityNumber := str "sev.num", severityText := str "sev.text" } }

/-- C4 fixture event: integer severity-number attribute 17 plus a
disagreeing severity attribute. -/
def evPrecedence : SpanEvent :=
  { name := str "boom"
    attributes := [(str "sev.num", AttrValue.vInt 17),
                   (str "sev.attr", AttrValue.vStr (str "debug"))] }

/-- C5 fixture event. -/
def evDbConn : SpanEvent := { name := str "database connection error" }

/-- C7 counterexample configuration: "unspecified" passes `Validate` but
fails the canonical parser. -/
def cfgUnspecified : Config :=
  { severityByEventName := [(str "exception", str "unspecified")] }

/-- C8 fixture configuration: add_level enabled, event attributes copied. -/
def cfgLevel : Config :=
  { logAttributesFrom := [str "event.attributes"]
    addLevel := true
    severityByEventName := [(str "warn-me", str "warn")] }

/-- C8 fixture event with a pre-existing "level" attribute. -/
def evWithLevel : SpanEvent :=
  { name := str "warn-me"
    attributes := [(str "level", AttrValue.vStr (str "critical"))] }

/-- C8 fixture event without a "level" attribute. -/
def evNoLevel : SpanEvent := { name := str "warn-me" }



/-- C5 configurations: the two-entry substring map in both list orders
and with upper-cased keys in both orders. -/
def cfgSubstrA : Config :=
  { severityByEventName := [(str "error", str "error"), (str "connection error", str "fatal")] }

/-- C5 configuration, reversed entry order. -/
def cfgSubstrB : Config :=
  { severityByEventName := [(str "connection error", str "fatal"), (str "error", str "error")] }

/-- C5 configuration, upper-cased keys. -/
def cfgSubstrC : Config :=
  { severityByEventName := [(str "ERROR", str "error"), (str "CONNECTION ERROR", str "fatal")] }

/-- C5 configuration, upper-cased keys, reversed order. -/
def cfgSubstrD : Config :=
  { severityByEventName := [(str "CONNECTION ERROR", str "fatal"), (str "ERROR", str "error")] }

/-! Helper lemmas about the string and map primitives. -/

/-- `strings.ToLower` distributes over concatenation. -/
theorem toLowerStr_append (s t : GoStr) :
    toLowerStr (s ++ t) = toLowerStr s ++ toLowerStr t :=
  List.map_append toLowerChar s t

/-- A successful association-list lookup exhibits a member pair. -/
theorem alookup_mem {β : Type} :
    ∀ (l : List (GoStr × β)) (k : GoStr) (v : β),
      alookup l k = some v → (k, v) ∈ l := by
  intro l
  induction l with
  | nil => intro k v h; simp [alookup] at h
  | cons p rest ih =>
    obtain ⟨k0, v0⟩ := p
    intro k v h
    simp only [alookup] at h
    split at h
    · next heq =>
      injection h with h
      subst heq; subst h
      exact List.mem_cons_self _ _
    · exact List.mem_cons_of_mem _ (ih k v h)

/-- A fold whose step fixes every state is the identity. -/
theorem foldl_fixed {α β : Type} (f : α → β → α) :
    ∀ (l : List β) (s : α), (∀ x ∈ l, ∀ a, f a x = a) → l.foldl f s = s := by
  intro l
  induction l with
  | nil => intro s _; rfl
  | cons x xs ih =>
    intro s h
    rw [List.foldl_cons, h x (List.mem_cons_self _ _)]
    exact ih s (fun y hy a => h y (List.mem_cons_of_mem _ hy) a)

/-- Reading back the key just upserted. -/
theorem aget_aput_self (m : AttrMap) (k : GoStr) (v : AttrValue) :
    aget (aput m k v) k = some v := by
  induction m with
  | nil => simp [aput, aget]
  | cons p rest ih =>
    obtain ⟨k0, v0⟩ := p
    by_cases hk : k0 = k
    · simp [aput, hk, aget]
    · simp [aput, hk, aget, ih]

/-- Upserting another key leaves a read unchanged. -/
theorem aget_aput_ne (m : AttrMap) (k k0 : GoStr) (v : AttrValue) (h : k0 ≠ k) :
    aget (aput m k0 v) k = aget m k := by
  induction m with
  | nil => simp [aput, aget, h]
  | cons p rest ih =>
    obtain ⟨k1, v1⟩ := p
    by_cases hk1 : k1 = k0
    · subst hk1; simp [aput, aget, h]
    · by_cases hk : k1 = k <;> simp [aput, hk1, aget, hk, ih, Ne.symm h]

/-- A missing key misses every entry. -/
theorem aget_none_keys (m : AttrMap) (k : GoStr) :
    aget m k = none → ∀ kv ∈ m, kv.1 ≠ k := by
  induction m with
  | nil => intro _ kv hkv; cases hkv
  | cons p rest ih =>
    obtain ⟨k0, v0⟩ := p
    intro h kv hkv
    simp only [aget] at h
    split at h
    · cases h
    · next hne =>
      rcases List.mem_cons.mp hkv with heq | hmem
      · subst heq; exact hne
      · exact ih h kv hmem

/-- An upsert fold over pairs that never touch `k` preserves a read. -/
theorem aget_foldl_aput_not_mem (l : List (GoStr × AttrValue)) :
    ∀ (init : AttrMap) (k : GoStr), (∀ kv ∈ l, kv.1 ≠ k) →
      aget (l.foldl (fun a kv => aput a kv.1 kv.2) init) k = aget init k := by
  induction l with
  | nil => intro init k _; rfl
  | cons p rest ih =>
    intro init k h
    rw [List.foldl_cons,
        ih (aput init p.1 p.2) k (fun kv hkv => h kv (List.mem_cons_of_mem _ hkv))]
    exact aget_aput_ne init k p.1 p.2 (h p (List.mem_cons_self _ _))

/-- An upsert fold over pairs with `k` present (keys unique, as in a
`pcommon.Map`) ends with the stored value, whatever the initial map. -/
theorem aget_foldl_aput_mem (l : List (GoStr × AttrValue)) :
    ∀ (init : AttrMap) (k : GoStr) (v : AttrValue),
      (l.map Prod.fst).Nodup → (k, v) ∈ l →
      aget (l.foldl (fun a kv => aput a kv.1 kv.2) init) k = some v := by
  induction l with
  | nil => intro _ _ _ _ h; cases h
  | cons p rest ih =>
    intro init k v hnd hm
    rw [List.map_cons] at hnd
    have hnd2 : p.1 ∉ rest.map Prod.fst ∧ (rest.map Prod.fst).Nodup :=
      List.nodup_cons.mp hnd
    rw [List.foldl_cons]
    rcases List.mem_cons.mp hm with heq | hmem
    · subst heq
      have hne : ∀ kv ∈ rest, kv.1 ≠ (k, v).1 := by
        intro kv hkv hc
        exact hnd2.1 (by rw [← hc]; exact List.mem_map_of_mem Prod.fst hkv)
      rw [aget_foldl_aput_not_mem rest (aput init (k, v).1 (k, v).2) (k, v).1 hne]
      exact aget_aput_self init k v
    · exact ih _ k v hnd2.2 hmem


/-- Every value stored in the text→severity map is one of the canonical
severity numbers. -/
theorem textToSeverityMap_values :
    ∀ kv ∈ textToSeverityMap, kv.2 ∈ severityMappings.map SevMapping.number := by decide

/-- `mapSeverityLower` either signals no match or returns a table number
with its canonical text. -/
theorem mapSeverityLower_result (ls : GoStr) :
    mapSeverityLower ls = (0, []) ∨
    ∃ n, n ∈ severityMappings.map SevMapping.number ∧
      mapSeverityLower ls = (n, (nlookup severityToTextMap n).getD []) := by
  rcases h1 : alookup textToSeverityMap ls with _ | n
  · rcases h2 : (if hasSuffixStr ls (str "1")
        then alookup textToSeverityMap (trimSuffixStr ls (str "1")) else none) with _ | n
    · rcases h3 : (if hasPrefixStr ls (str "warning") && decide (ls.length > 7)
          then alookup textToSeverityMap (str "warn" ++ ls.drop 7) else none) with _ | n
      · left; simp only [mapSeverityLower, h1, h2, h3]
      · right
        refine ⟨n, ?_, by simp only [mapSeverityLower, h1, h2, h3]⟩
        split at h3
        · exact textToSeverityMap_values _ (alookup_mem _ _ _ h3)
        · cases h3
    · right
      refine ⟨n, ?_, by simp only [mapSeverityLower, h1, h2]⟩
      split at h2
      · exact textToSeverityMap_values _ (alookup_mem _ _ _ h2)
      · cases h2
  · right
    exact ⟨n, textToSeverityMap_values _ (alookup_mem _ _ _ h1),
           by simp only [mapSeverityLower, h1]⟩

/-- Claim C9: for every severity string the canonical parser recognizes,
round-tripping is stable: if `mapSeverity s = (n, t)` with `n` not
Unspecified, then `severityNumberToText n = t` and
`mapSeverity t = (n, t)`. -/
theorem C9_severity_roundtrip_stable (s : GoStr) (n : Int) (t : GoStr)
    (h : mapSeverity s = (n, t)) (hn : n ≠ 0) :
    severityNumberToText n = t ∧ mapSeverity t = (n, t) := by
  have hls : mapSeverityLower (toLowerStr s) = (n, t) := h
  rcases mapSeverityLower_result (toLowerStr s) with h0 | ⟨m, hm, heq⟩
  · rw [h0] at hls
    injection hls with h1 h2
    exact absurd h1.symm hn
  · rw [heq] at hls
    injection hls with h1 h2
    have key : ∀ m ∈ severityMappings.map SevMapping.number,
        severityNumberToText m = (nlookup severityToTextMap m).getD [] ∧
        mapSeverity ((nlookup severityToTextMap m).getD [])
          = (m, (nlookup severityToTextMap m).getD []) := by decide
    obtain ⟨hk1, hk2⟩ := key m hm
    subst h1; subst h2
    exact ⟨hk1, hk2⟩

/-- Closed witness for C9 at the recognized string "WARNING2". -/
theorem C9_severity_roundtrip_stable_witness :
    severityNumberToText 14 = str "warn2" ∧ mapSeverity (str "warn2") = (14, str "warn2") :=
  C9_severity_roundtrip_stable (str "WARNING2") 14 (str "warn2") (by decide) (by decide)

/-- Claim C10: appending the digit '1' to any name or alias in the
text→severity table parses identically to the bare name. -/
theorem C10_suffix_one_parses_like_base (b : GoStr)
    (h : (alookup textToSeverityMap (toLowerStr b)).isSome = true) :
    mapSeverity (b ++ str "1") = mapSeverity b := by
  obtain ⟨n, hn⟩ := Option.isSome_iff_exists.mp h
  have hmem : (toLowerStr b, n) ∈ textToSeverityMap := alookup_mem _ _ _ hn
  have key : ∀ kv ∈ textToSeverityMap,
      mapSeverityLower (kv.1 ++ str "1") = mapSeverityLower kv.1 := by decide
  have h1 : toLowerStr (str "1") = str "1" := by decide
  calc mapSeverity (b ++ str "1")
      = mapSeverityLower (toLowerStr b ++ toLowerStr (str "1")) := by
        rw [mapSeverity, toLowerStr_append]
    _ = mapSeverityLower (toLowerStr b ++ str "1") := by rw [h1]
    _ = mapSeverityLower (toLowerStr b) := key (toLowerStr b, n) hmem
    _ = mapSeverity b := rfl

/-- Closed witness for C10 at the base name "error". -/
theorem C10_suffix_one_parses_like_base_witness :
    mapSeverity (str "error" ++ str "1") = mapSeverity (str "error") :=
  C10_suffix_one_parses_like_base (str "error") (by decide)


/-- Claim C6 counterexample: the claim reads "err2" as a recognized
numbered alias form parsing to error2 (= 18), but `mapSeverity` rejects
it: the alias map holds only "err", the suffix branch only strips a
trailing "1", and the prefix branch only handles "warning". -/
theorem C6_err2_counterexample :
    mapSeverity (str "err2") = (0, []) ∧ mapSeverity (str "err2") ≠ (18, str "error2") := by
  decide

/-- Claim C6 (amended): `mapSeverity` is case-insensitive and recognizes
the 24 canonical level texts, the alias "warning" with all its numbered
forms, and the alias "err" only in its bare and '1'-suffixed forms
("err2"–"err4" are rejected); any unmatched string yields exactly
`(SeverityNumberUnspecified, "")`, never a default severity. -/
theorem C6_parser_language_amended :
    (∀ p ∈ severityMappings, ∀ s : GoStr, toLowerStr s = p.text →
        mapSeverity s = (p.number, p.text))
    ∧ (∀ s : GoStr, toLowerStr s = str "warning" → mapSeverity s = (13, str "warn"))
    ∧ (∀ s : GoStr, toLowerStr s = str "warning1" → mapSeverity s = (13, str "warn"))
    ∧ (∀ s : GoStr, toLowerStr s = str "warning2" → mapSeverity s = (14, str "warn2"))
    ∧ (∀ s : GoStr, toLowerStr s = str "warning3" → mapSeverity s = (15, str "warn3"))
    ∧ (∀ s : GoStr, toLowerStr s = str "warning4" → mapSeverity s = (16, str "warn4"))
    ∧ (∀ s : GoStr, toLowerStr s = str "err" → mapSeverity s = (17, str "error"))
    ∧ (∀ s : GoStr, toLowerStr s = str "err1" → mapSeverity s = (17, str "error"))
    ∧ mapSeverity (str "err2") = (0, [])
    ∧ mapSeverity (str "err3") = (0, [])
    ∧ mapSeverity (str "err4") = (0, [])
    ∧ (∀ s : GoStr, (mapSeverity s).1 = 0 → mapSeverity s = (0, [])) := by
  have base : ∀ p ∈ severityMappings, mapSeverityLower p.text = (p.number, p.text) := by
    decide
  have nonzero : ∀ m ∈ severityMappings.map SevMapping.number, m ≠ (0 : Int) := by decide
  refine ⟨?_, ?_, ?_, ?_, ?_, ?_, ?_, ?_, by decide, by decide, by decide, ?_⟩
  · intro p hp s hs
    have : mapSeverity s = mapSeverityLower (toLowerStr s) := rfl
    rw [this, hs]
    exact base p hp
  all_goals try
    (intro s hs
     have : mapSeverity s = mapSeverityLower (toLowerStr s) := rfl
     rw [this, hs]
     decide)
  · intro s h0
    rcases mapSeverityLower_result (toLowerStr s) with h | ⟨m, hm, heq⟩
    · exact h
    · have : mapSeverity s = mapSeverityLower (toLowerStr s) := rfl
      rw [this, heq] at h0
      exact absurd h0 (nonzero m hm)

/-- Closed witness for C6 (amended), exercising the case-insensitive
recognition conjunct at "TRACE". -/
theorem C6_parser_language_amended_witness :
    mapSeverity (str "TRACE") = (1, str "trace") :=
  C6_parser_language_amended.1 ⟨1, str "trace"⟩ (by decide) (str "TRACE") (by decide)

/-- Claim C5: with the substring map mapping "error" to error and
"connection error" to fatal, an event named "database connection error"
resolves (with no higher-precedence stage configured) to fatal — the
longest case-insensitively contained valid key wins — in both map
iteration orders, and likewise when the keys are upper-cased. -/
theorem C5_longest_substring_fatal :
    resolveSeverity cfgSubstrA evDbConn = (21, str "fatal")
    ∧ resolveSeverity cfgSubstrB evDbConn = (21, str "fatal")
    ∧ resolveSeverity cfgSubstrC evDbConn = (21, str "fatal")
    ∧ resolveSeverity cfgSubstrD evDbConn = (21, str "fatal")
    ∧ (populateLogRecord (newConnector cfgSubstrA) 0 evDbConn {}).severityText = str "fatal"
    ∧ (populateLogRecord (newConnector cfgSubstrA) 0 evDbConn {}).severityNumber = 21 := by
  decide

/-- Claim C1 (code-bug evidence): on a batch holding one resource, one
scope and one span with two convertible events, the extractor emits TWO
resource groups of one record each, not one group with both records.
`findOrCreateResourceLogs` compares `rl.Resource() == res`, but every
resource stored in the output is a `CopyTo` copy — a fresh instance that
is never identical to the source wrapper — so the find can never hit and
each event opens a fresh group. -/
theorem C1_grouping_failing_input_eval :
    (extractLogsFromTraces (newConnector cfgFix) 0 tracesFix).resourceLogs.length = 2
    ∧ logRecordCount (extractLogsFromTraces (newConnector cfgFix) 0 tracesFix) = 2
    ∧ ((extractLogsFromTraces (newConnector cfgFix) 0 tracesFix).resourceLogs.map
        (fun rl => rl.scopeLogs.map (fun sl => sl.logRecords.length))) = [[1], [1]] := by
  decide


/-- Claim C3: when no span event in the batch passes the event filter,
`ConsumeTraces` never invokes the downstream logs consumer and the
extracted batch holds zero log records. -/
theorem C3_no_qualifying_events_no_call (cfg : Config) (now : Nat) (tr : Traces)
    (h : ∀ rs ∈ tr.resourceSpans, ∀ ss ∈ rs.scopeSpans, ∀ sp ∈ ss.spans,
         ∀ ev ∈ sp.events, eventPasses (newConnector cfg) ev.name = false) :
    consumeTraces (newConnector cfg) now tr = none
    ∧ logRecordCount (extractLogsFromTraces (newConnector cfg) now tr) = 0 := by
  have hext : extractLogsFromTraces (newConnector cfg) now tr = { resourceLogs := [] } := by
    unfold extractLogsFromTraces
    split
    · rfl
    · have hfold :
          tr.resourceSpans.foldl (fun st rs =>
            rs.scopeSpans.foldl (fun st ss =>
              ss.spans.foldl (fun st sp =>
                sp.events.foldl (fun st ev =>
                  processEvent (newConnector cfg) now rs.resource ss.scope sp ev st) st)
                st) st) (([], 0) : List ResourceLogs × Nat) = ([], 0) :=
        foldl_fixed _ _ _ (fun rs hrs a =>
          foldl_fixed _ _ a (fun ss hss b =>
            foldl_fixed _ _ b (fun sp hsp c =>
              foldl_fixed _ _ c (fun ev hev d => by
                simp [processEvent, h rs hrs ss hss sp hsp ev hev]))))
      simp [hfold]
  exact ⟨by simp [consumeTraces, hext, logRecordCount],
         by simp [hext, logRecordCount]⟩

/-- Closed witness for C3: the filter allow-list ["nonexistent"] matches
nothing in the test batch, so the sink is never called. -/
theorem C3_no_qualifying_events_no_call_witness :
    consumeTraces (newConnector cfgNoMatch) 0 tracesFix = none
    ∧ logRecordCount (extractLogsFromTraces (newConnector cfgNoMatch) 0 tracesFix) = 0 :=
  C3_no_qualifying_events_no_call cfgNoMatch 0 tracesFix (by decide)


/-- A configured integer severity-number attribute makes the number half
of stage 1 report found. -/
theorem sevStage1Num_found_of_hit (cfg : Config) (ev : SpanEvent)
    (hne : cfg.attributeMappings.severityNumber ≠ []) (n : Int)
    (hget : aget ev.attributes cfg.attributeMappings.severityNumber
      = some (AttrValue.vInt n)) :
    (sevStage1Num cfg ev).found = true := by
  simp [sevStage1Num, hne, hget]

/-- A configured string severity-text attribute makes the text half of
stage 1 report found, whatever state the number half left. -/
theorem sevStage1Text_found_of_hit (cfg : Config) (ev : SpanEvent) (st : SevState)
    (hne : cfg.attributeMappings.severityText ≠ []) (s : GoStr)
    (hget : aget ev.attributes cfg.attributeMappings.severityText
      = some (AttrValue.vStr s)) :
    (sevStage1Text cfg ev st).found = true := by
  rw [sevStage1Text, if_pos hne, hget]
  rcases hb : st.found
  · simp only [hb, Bool.false_eq_true, if_false]
    split <;> rfl
  · simp [hb]

/-- The text half of stage 1 keeps an already-found state found. -/
theorem sevStage1Text_found_preserved (cfg : Config) (ev : SpanEvent) (st : SevState)
    (h : st.found = true) : (sevStage1Text cfg ev st).found = true := by
  simp only [sevStage1Text]
  split
  · split
    · simp [h]
    · exact h
  · exact h

/-- After a stage-1 hit (integer severity-number attribute or string
severity-text attribute present), the resolution state is found. -/
theorem sevStage1_found_of_hit (cfg : Config) (ev : SpanEvent)
    (h : (cfg.attributeMappings.severityNumber ≠ [] ∧
          ∃ n, aget ev.attributes cfg.attributeMappings.severityNumber
            = some (AttrValue.vInt n))
       ∨ (cfg.attributeMappings.severityText ≠ [] ∧
          ∃ s, aget ev.attributes cfg.attributeMappings.severityText
            = some (AttrValue.vStr s))) :
    (sevStage1 cfg ev).found = true := by
  rcases h with ⟨hne, n, hget⟩ | ⟨hne, s, hget⟩
  · rw [sevStage1, if_pos (Or.inl hne)]
    exact sevStage1Text_found_preserved _ _ _ (sevStage1Num_found_of_hit cfg ev hne n hget)
  · rw [sevStage1, if_pos (Or.inr hne)]
    exact sevStage1Text_found_of_hit cfg ev _ hne s hget

/-- Stage 2 is skipped once the state is found. -/
theorem sevStage2_of_found (cfg : Config) (ev : SpanEvent) (st : SevState)
    (h : st.found = true) : sevStage2 cfg ev st = st := by
  simp [sevStage2, h]

/-- Stage 3 is skipped once the state is found. -/
theorem sevStage3_of_found (cfg : Config) (ev : SpanEvent) (st : SevState)
    (h : st.found = true) : sevStage3 cfg ev st = st := by
  simp [sevStage3, h]

/-- After a stage-1 hit, clearing `severity_attribute` and
`severity_by_event_name` does not change the resolved severity. -/
theorem resolveSeverity_fallbacks_ignored (cfg : Config) (ev : SpanEvent)
    (h : (cfg.attributeMappings.severityNumber ≠ [] ∧
          ∃ n, aget ev.attributes cfg.attributeMappings.severityNumber
            = some (AttrValue.vInt n))
       ∨ (cfg.attributeMappings.severityText ≠ [] ∧
          ∃ s, aget ev.attributes cfg.attributeMappings.severityText
            = some (AttrValue.vStr s))) :
    resolveSeverity cfg ev
      = resolveSeverity { cfg with severityAttribute := [], severityByEventName := [] } ev := by
  have h1 : sevStage1 { cfg with severityAttribute := [], severityByEventName := [] } ev
      = sevStage1 cfg ev := rfl
  have hf := sevStage1_found_of_hit cfg ev h
  have hf2 : (sevStage1 { cfg with severityAttribute := [], severityByEventName := [] } ev).found
      = true := by rw [h1]; exact hf
  unfold resolveSeverity
  rw [sevStage2_of_found _ _ _ hf, sevStage3_of_found _ _ _ hf,
      sevStage2_of_found _ _ _ hf2, sevStage3_of_found _ _ _ hf2, h1]

/-- `populateLogRecord` only reads the configuration through the
resolved severity, the attribute mappings, the source list, `add_level`
and `include_span_context`. -/
theorem populateLogRecord_congr (c c2 : Connector) (now : Nat) (ev : SpanEvent) (sp : Span)
    (h1 : resolveSeverity c.config ev = resolveSeverity c2.config ev)
    (h2 : c.config.attributeMappings = c2.config.attributeMappings)
    (h3 : c.config.logAttributesFrom = c2.config.logAttributesFrom)
    (h4 : c.config.addLevel = c2.config.addLevel)
    (h5 : c.config.includeSpanContext = c2.config.includeSpanContext) :
    populateLogRecord c now ev sp = populateLogRecord c2 now ev sp := by
  unfold populateLogRecord composeAttrsCtx composeAttrsSpan composeAttrsBase
    attrsAfterEventCopy shouldCopyAttributes
  rw [h1, h2, h3, h4, h5]

/-- Claim C4: when the event carries the configured severity-number
attribute with an integer value, or the configured severity-text
attribute with a string value, the record produced by
`populateLogRecord` is identical to the one produced with
`severity_attribute` and `severity_by_event_name` cleared — the
attribute-mapping stage wins and the two fallback stages are never
consulted. -/
theorem C4_attribute_mapping_precedence (c : Connector) (now : Nat)
    (ev : SpanEvent) (sp : Span)
    (h : (c.config.attributeMappings.severityNumber ≠ [] ∧
          ∃ n, aget ev.attributes c.config.attributeMappings.severityNumber
            = some (AttrValue.vInt n))
       ∨ (c.config.attributeMappings.severityText ≠ [] ∧
          ∃ s, aget ev.attributes c.config.attributeMappings.severityText
            = some (AttrValue.vStr s))) :
    populateLogRecord c now ev sp
      = populateLogRecord
          ⟨{ c.config with severityAttribute := [], severityByEventName := [] },
           c.eventNameSet⟩ now ev sp :=
  populateLogRecord_congr c
    ⟨{ c.config with severityAttribute := [], severityByEventName := [] }, c.eventNameSet⟩
    now ev sp (resolveSeverity_fallbacks_ignored c.config ev h) rfl rfl rfl rfl

/-- Closed witness for C4: severity-number attribute 17 (error) wins
over the disagreeing severity attribute ("debug") and event-name map
("fatal"); the record is the same as with both fallbacks cleared. -/
theorem C4_attribute_mapping_precedence_witness :
    populateLogRecord (newConnector cfgPrecedence) 0 evPrecedence spanFix
      = populateLogRecord
          ⟨{ cfgPrecedence with severityAttribute := [], severityByEventName := [] },
           (newConnector cfgPrecedence).eventNameSet⟩ 0 evPrecedence spanFix :=
  C4_attribute_mapping_precedence (newConnector cfgPrecedence) 0 evPrecedence spanFix
    (Or.inl ⟨by decide, ⟨17, by decide⟩⟩)


/-- The span-attribute copy leaves keys the span does not carry alone. -/
theorem aget_composeAttrsSpan_missing (c : Connector) (sp : Span) (m : AttrMap) (k : GoStr)
    (h : shouldCopyAttributes c (str "span.attributes") = true → aget sp.attributes k = none) :
    aget (composeAttrsSpan c sp m) k = aget m k := by
  unfold composeAttrsSpan
  split
  · next hc => exact aget_foldl_aput_not_mem _ _ _ (aget_none_keys _ _ (h hc))
  · rfl

/-- The span-context writes only touch "trace.state", "span.name" and
"span.kind". -/
theorem aget_composeAttrsCtx_other (c : Connector) (sp : Span) (m : AttrMap) (k : GoStr)
    (h1 : k ≠ str "trace.state") (h2 : k ≠ str "span.name") (h3 : k ≠ str "span.kind") :
    aget (composeAttrsCtx c sp m) k = aget m k := by
  have e1 := fun (m2 : AttrMap) v => aget_aput_ne m2 k (str "trace.state") v (Ne.symm h1)
  have e2 := fun (m2 : AttrMap) v => aget_aput_ne m2 k (str "span.name") v (Ne.symm h2)
  have e3 := fun (m2 : AttrMap) v => aget_aput_ne m2 k (str "span.kind") v (Ne.symm h3)
  unfold composeAttrsCtx
  split
  · simp only [e3, e2]
    split
    · simp only [e1]
    · rfl
  · rfl

/-- When the composed record attributes already hold "level" (here: the
event carries it and event attributes are copied), the base composition
keeps that value — the add-level write never overwrites. -/
theorem aget_attrsAfterEventCopy_some (c : Connector) (ev : SpanEvent) (v : AttrValue)
    (hcopy : shouldCopyAttributes c (str "event.attributes") = true)
    (hget : aget ev.attributes (str "level") = some v)
    (hen : c.config.attributeMappings.eventName ≠ str "level") :
    aget (attrsAfterEventCopy c ev) (str "level") = some v := by
  unfold attrsAfterEventCopy
  rw [if_pos hcopy]
  split
  · exact (aget_aput_ne _ _ _ _ hen).trans hget
  · exact hget

/-- Dual fact: when the event does not supply "level" (or is not
copied), the key is still absent after the event-name write. -/
theorem aget_attrsAfterEventCopy_none (c : Connector) (ev : SpanEvent)
    (hev : shouldCopyAttributes c (str "event.attributes") = true →
      aget ev.attributes (str "level") = none)
    (hen : c.config.attributeMappings.eventName ≠ str "level") :
    aget (attrsAfterEventCopy c ev) (str "level") = none := by
  have h1 : aget (if shouldCopyAttributes c (str "event.attributes") = true
      then ev.attributes else []) (str "level") = none := by
    split
    · next hc => exact hev hc
    · rfl
  unfold attrsAfterEventCopy
  split
  · exact (aget_aput_ne _ _ _ _ hen).trans h1
  · exact h1

/-- When the composed record attributes already hold "level", the
add-level write never overwrites. -/
theorem aget_composeAttrsBase_existing (c : Connector) (ev : SpanEvent) (sevText : GoStr)
    (v : AttrValue)
    (hcopy : shouldCopyAttributes c (str "event.attributes") = true)
    (hget : aget ev.attributes (str "level") = some v)
    (hen : c.config.attributeMappings.eventName ≠ str "level") :
    aget (composeAttrsBase c ev sevText) (str "level") = some v := by
  have h2 := aget_attrsAfterEventCopy_some c ev v hcopy hget hen
  unfold composeAttrsBase
  split
  · rw [if_pos (by simp [h2])]
    exact h2
  · exact h2

/-- When no "level" key is present before the add-level step, the step
writes the resolved severity text. -/
theorem aget_composeAttrsBase_absent (c : Connector) (ev : SpanEvent) (sevText : GoStr)
    (hev : shouldCopyAttributes c (str "event.attributes") = true →
      aget ev.attributes (str "level") = none)
    (hen : c.config.attributeMappings.eventName ≠ str "level")
    (hal : c.config.addLevel = true) :
    aget (composeAttrsBase c ev sevText) (str "level")
      = some (AttrValue.vStr sevText) := by
  have h2 := aget_attrsAfterEventCopy_none c ev hev hen
  unfold composeAttrsBase
  rw [if_pos hal, if_neg (by simp [h2])]
  exact aget_aput_self _ _ _

/-- Claim C8: the add-level write never overwrites an existing "level"
attribute — when the event supplies one (and later writes do not touch
the key), the output keeps the event value — and only when no "level"
key is present before the step does it write the resolved severity
text. -/
theorem C8_add_level_non_overwriting :
    (∀ (c : Connector) (now : Nat) (ev : SpanEvent) (sp : Span) (v : AttrValue),
      c.config.addLevel = true →
      shouldCopyAttributes c (str "event.attributes") = true →
      aget ev.attributes (str "level") = some v →
      c.config.attributeMappings.eventName ≠ str "level" →
      (shouldCopyAttributes c (str "span.attributes") = true →
        aget sp.attributes (str "level") = none) →
      aget (populateLogRecord c now ev sp).attributes (str "level") = some v)
    ∧ (∀ (c : Connector) (now : Nat) (ev : SpanEvent) (sp : Span),
      c.config.addLevel = true →
      (shouldCopyAttributes c (str "event.attributes") = true →
        aget ev.attributes (str "level") = none) →
      c.config.attributeMappings.eventName ≠ str "level" →
      (shouldCopyAttributes c (str "span.attributes") = true →
        aget sp.attributes (str "level") = none) →
      aget (populateLogRecord c now ev sp).attributes (str "level")
        = some (AttrValue.vStr (populateLogRecord c now ev sp).severityText)) := by
  constructor
  · intro c now ev sp v _ hcopy hget hen hspan
    have hrec : (populateLogRecord c now ev sp).attributes
        = composeAttrsCtx c sp (composeAttrsSpan c sp
            (composeAttrsBase c ev (resolveSeverity c.config ev).2)) := rfl
    rw [hrec,
        aget_composeAttrsCtx_other _ _ _ _ (by decide) (by decide) (by decide),
        aget_composeAttrsSpan_missing _ _ _ _ hspan]
    exact aget_composeAttrsBase_existing c ev _ v hcopy hget hen
  · intro c now ev sp hal hev hen hspan
    have hrec : (populateLogRecord c now ev sp).attributes
        = composeAttrsCtx c sp (composeAttrsSpan c sp
            (composeAttrsBase c ev (resolveSeverity c.config ev).2)) := rfl
    have hsev : (populateLogRecord c now ev sp).severityText
        = (resolveSeverity c.config ev).2 := rfl
    rw [hrec, hsev,
        aget_composeAttrsCtx_other _ _ _ _ (by decide) (by decide) (by decide),
        aget_composeAttrsSpan_missing _ _ _ _ hspan]
    exact aget_composeAttrsBase_absent c ev _ hev hen hal

/-- Closed witness for C8: with add_level on, an event attribute
"level"="critical" survives to the output record unchanged, and an
event without "level" receives the resolved text "warn". -/
theorem C8_add_level_non_overwriting_witness :
    aget (populateLogRecord (newConnector cfgLevel) 0 evWithLevel spanFix).attributes
      (str "level") = some (AttrValue.vStr (str "critical"))
    ∧ aget (populateLogRecord (newConnector cfgLevel) 0 evNoLevel spanFix).attributes
      (str "level")
      = some (AttrValue.vStr (populateLogRecord (newConnector cfgLevel) 0 evNoLevel
          spanFix).severityText) :=
  ⟨C8_add_level_non_overwriting.1 (newConnector cfgLevel) 0 evWithLevel spanFix
      (AttrValue.vStr (str "critical")) (by decide) (by decide) (by decide) (by decide)
      (fun hc => by revert hc; decide),
   C8_add_level_non_overwriting.2 (newConnector cfgLevel) 0 evNoLevel spanFix
      (by decide) (fun hc => by decide) (by decide) (fun hc => by revert hc; decide)⟩


/-- Claim C2 counterexample: with log_attributes_from =
["span.attributes", "event.attributes"] and a key present in both
sources, the record holds the SPAN value even though the event source is
listed last — the copies happen in the fixed code order (event first,
then span), not in configured list order. -/
theorem C2_configured_order_counterexample :
    aget (populateLogRecord (newConnector cfgSpanThenEvent) 0 evShared spShared).attributes
      (str "shared.key") = some (AttrValue.vStr (str "span-val"))
    ∧ aget (populateLogRecord (newConnector cfgSpanThenEvent) 0 evShared spShared).attributes
      (str "shared.key") ≠ some (AttrValue.vStr (str "event-val")) := by
  decide

/-- Claim C2 (amended): whenever both event and span attribute sources
are configured — in either list order — a key carried by the span ends
with the span's value on the record, because the span copy is applied
after the event copy regardless of the configured order. -/
theorem C2_span_copy_wins_amended (c : Connector) (now : Nat) (ev : SpanEvent) (sp : Span)
    (k : GoStr) (v : AttrValue)
    (_he : shouldCopyAttributes c (str "event.attributes") = true)
    (hs : shouldCopyAttributes c (str "span.attributes") = true)
    (hctx : c.config.includeSpanContext = false)
    (hnd : (sp.attributes.map Prod.fst).Nodup)
    (hm : (k, v) ∈ sp.attributes) :
    aget (populateLogRecord c now ev sp).attributes k = some v := by
  have hrec : (populateLogRecord c now ev sp).attributes
      = composeAttrsCtx c sp (composeAttrsSpan c sp
          (composeAttrsBase c ev (resolveSeverity c.config ev).2)) := rfl
  rw [hrec]
  unfold composeAttrsCtx
  rw [if_neg (by simp [hctx])]
  unfold composeAttrsSpan
  rw [if_pos hs]
  exact aget_foldl_aput_mem _ _ _ _ hnd hm

/-- Closed witness for the amended C2 on the counterexample fixture. -/
theorem C2_span_copy_wins_amended_witness :
    aget (populateLogRecord (newConnector cfgSpanThenEvent) 0 evShared spShared).attributes
      (str "shared.key") = some (AttrValue.vStr (str "span-val")) :=
  C2_span_copy_wins_amended (newConnector cfgSpanThenEvent) 0 evShared spShared
    (str "shared.key") (AttrValue.vStr (str "span-val"))
    (by decide) (by decide) (by decide) (by decide) (by decide)

/-- Claim C7 counterexample: the configuration mapping "exception" to
"unspecified" validates (`Validate` returns nil), yet "unspecified"
fails the canonical parser, so "Validate errors iff some severity value
fails the canonical parser" is false at this input. -/
theorem C7_unspecified_counterexample :
    ¬ (((Validate cfgUnspecified).isSome = true) ↔
        ((∃ s ∈ cfgUnspecified.logAttributesFrom, ¬ s ∈ validSources)
         ∨ (∃ kv ∈ cfgUnspecified.severityByEventName, mapSeverity kv.2 = (0, [])))) := by
  decide

/-- Claim C7 (amended): `Config.Validate` returns an error exactly when
some log_attributes_from entry is outside the three enumerated sources
or some severity_by_event_name value is outside the literal
`validSeverities` set (the 24 canonical lowercase texts plus
"unspecified", matched case-sensitively) — a set that differs from the
canonical parser's language. -/
theorem C7_validate_error_iff_amended (cfg : Config) :
    (Validate cfg).isSome = true ↔
      ((∃ s ∈ cfg.logAttributesFrom, ¬ s ∈ validSources)
       ∨ (∃ kv ∈ cfg.severityByEventName, ¬ kv.2 ∈ validSeverities)) := by
  unfold Validate
  rcases hf1 : cfg.logAttributesFrom.find?
      (fun s => !(validSources.any (fun v => v = s))) with _ | s
  · rcases hf2 : cfg.severityByEventName.find?
        (fun kv => !(validSeverities.any (fun v => v = kv.2))) with _ | kv
    · simp only [hf1, hf2, Option.isSome_none]
      constructor
      · intro h; cases h
      · intro h
        exfalso
        rcases h with ⟨s, hs, hns⟩ | ⟨kv, hkv, hnv⟩
        · have hpred := List.find?_eq_none.mp hf1 s hs
          simp only [Bool.not_eq_true', List.any_eq_true, decide_eq_true_eq,
            Bool.not_eq_false] at hpred
          exact hns (by rcases hpred with ⟨v, hv, rfl⟩; exact hv)
        · have hpred := List.find?_eq_none.mp hf2 kv hkv
          simp only [Bool.not_eq_true', List.any_eq_true, decide_eq_true_eq,
            Bool.not_eq_false] at hpred
          exact hnv (by rcases hpred with ⟨v, hv, rfl⟩; exact hv)
    · simp only [hf1, hf2, Option.isSome_some, true_iff]
      refine Or.inr ⟨kv, List.mem_of_find?_eq_some hf2, ?_⟩
      have hpred := List.find?_some hf2
      rw [Bool.not_eq_true', List.any_eq_false] at hpred
      intro hmem
      exact hpred kv.2 hmem (by simp)
  · simp only [hf1, Option.isSome_some, true_iff]
    refine Or.inl ⟨s, List.mem_of_find?_eq_some hf1, ?_⟩
    have hpred := List.find?_some hf1
    intro hmem
    rw [Bool.not_eq_true', List.any_eq_false] at hpred
    exact hpred s hmem (by simp)


/-- Closed witness for the amended C7, instantiated at the
counterexample configuration: no violation, so no error. -/
theorem C7_validate_error_iff_amended_witness :
    (Validate cfgUnspecified).isSome = true ↔
      ((∃ s ∈ cfgUnspecified.logAttributesFrom, ¬ s ∈ validSources)
       ∨ (∃ kv ∈ cfgUnspecified.severityByEventName, ¬ kv.2 ∈ validSeverities)) :=
  C7_validate_error_iff_amended cfgUnspecified

end SpanEventToLog
